import Mathlib

set_option maxRecDepth 8000

/-!
Shallow embedding of the react-posts client-side data-fetching and caching
layer.

The embedding covers:
* the two-tier cache store (`UniversalCacheManager` over `localStorage` plus an
  in-memory `Map`), with the durable tier modelled as a partial map that can be
  globally unavailable (every primitive operation on it then returns an
  `Except.error`, which the manager catches, exactly like the `try`/`catch`
  blocks in the source);
* the cache-key policy of `useInfinitePosts` and the cross-filter invalidation
  effect of `useFiltersCacheManager`;
* the pure response-processing part of `fetchPaginatedPosts` / `fetchPosts`
  (HTTP status check, total-count header handling, pagination metadata,
  per-post structural validation);
* the state machines of the `useInfiniteApi` and `useApi` hooks.  Each network
  fetch is split into a `begin` step (everything the source runs before
  `await fetcher(...)`, including `ApiUtils.createRequestController`) and a
  `finish` step (everything after the `await`, including the
  `controller.signal.aborted` checks, the `finally` block and
  `ApiUtils.cleanupRequest`), so that interleavings of two in-flight requests
  can be expressed.  A `requestLog` field records the page number of every
  request actually issued.

JS `Map`s and `localStorage` are modelled as association lists where insertion
prepends (shadowing older bindings) and lookup finds the first binding.  The
stores are typed per payload kind (the source keeps single and paged entries in
one dynamically-typed map and distinguishes them with the `'pages' in entry`
check `isInfiniteEntry`; in the typed embedding each controller's store holds
only entries of its own payload type, so that check is statically resolved).
`Date.now()` is passed explicitly as a `now : Nat` argument, and the
`persistentCache = true` configuration used by every caller in the repository
is the modelled path.
-/

namespace ReactPosts

/-- Association list modelling a JS `Map` / `localStorage` key-value store. -/
abbrev AList (α : Type) : Type := List (String × α)

/-- Lookup of the first binding of a key, modelling `Map.get` /
`localStorage.getItem`. -/
def AList.lookup {α : Type} (m : AList α) (k : String) : Option α :=
  match m with
  | [] => none
  | (k', v) :: rest => if k' = k then some v else AList.lookup rest k

/-- Insertion by prepending, modelling `Map.set` / `localStorage.setItem`
(newer bindings shadow older ones). -/
def AList.insert {α : Type} (m : AList α) (k : String) (v : α) : AList α :=
  (k, v) :: m

/-- Removal of every binding of a key, modelling `Map.delete` /
`localStorage.removeItem`. -/
def AList.erase {α : Type} (m : AList α) (k : String) : AList α :=
  m.filter (fun p => !(p.1 == k))

/-- A cache entry envelope: `data`, `timestamp` (creation time) and
`expiresAt`.  Single entries instantiate `α` with the payload type, infinite
(paged) entries with a list of pages. -/
structure CacheEntry (α : Type) where
  data : α
  timestamp : Nat
  expiresAt : Nat
deriving DecidableEq

/-- The two-tier cache store: `ls` is the durable tier (`localStorage`),
`memory` the fast in-process tier.  `lsAvailable = false` models a storage
environment in which every `localStorage` operation throws. -/
structure Store (α : Type) where
  lsAvailable : Bool
  ls : AList (CacheEntry α)
  memory : AList (CacheEntry α)
deriving DecidableEq

/-- `localStorage.getItem`: throws when storage is unavailable. -/
def lsGetItem {α : Type} (s : Store α) (k : String) :
    Except Unit (Option (CacheEntry α)) :=
  if s.lsAvailable then .ok (s.ls.lookup k) else .error ()

/-- `localStorage.setItem`: throws when storage is unavailable. -/
def lsSetItem {α : Type} (s : Store α) (k : String) (e : CacheEntry α) :
    Except Unit (Store α) :=
  if s.lsAvailable then .ok { s with ls := s.ls.insert k e } else .error ()

/-- `localStorage.removeItem`: throws when storage is unavailable. -/
def lsRemoveItem {α : Type} (s : Store α) (k : String) :
    Except Unit (Store α) :=
  if s.lsAvailable then .ok { s with ls := s.ls.erase k } else .error ()

/-- The `CACHE_PREFIX` constant of `UniversalCacheManager`. -/
def cachePfx : String := "api_cache_"

namespace UniversalCacheManager

/-- `UniversalCacheManager.delete`: removes the entry from `localStorage`
(ignoring storage errors) and from the memory tier. -/
def delete {α : Type} (s : Store α) (k : String) : Store α :=
  let s1 := match lsRemoveItem s (cachePfx ++ k) with
    | .ok s' => s'
    | .error _ => s
  { s1 with memory := s1.memory.erase k }

/-- `UniversalCacheManager.get`: tries `localStorage` first; a stored entry
that is expired (`now > expiresAt`) is deleted from both tiers and `null` is
returned; an unexpired stored entry is promoted into the memory tier and
returned.  When the stored value is absent or `localStorage` throws, the
lookup falls back to the memory tier (with no expiry check, as in the
source). -/
def get {α : Type} (now : Nat) (s : Store α) (k : String) :
    Store α × Option (CacheEntry α) :=
  match lsGetItem s (cachePfx ++ k) with
  | .ok (some e) =>
    if now > e.expiresAt then (delete s k, none)
    else ({ s with memory := s.memory.insert k e }, some e)
  | .ok none => (s, s.memory.lookup k)
  | .error _ => (s, s.memory.lookup k)

/-- `UniversalCacheManager.set`: attempts the `localStorage` write (a storage
error is caught and ignored) and always writes to the memory tier. -/
def set {α : Type} (s : Store α) (k : String) (e : CacheEntry α) : Store α :=
  let s1 := match lsSetItem s (cachePfx ++ k) e with
    | .ok s' => s'
    | .error _ => s
  { s1 with memory := s1.memory.insert k e }

/-- `UniversalCacheManager.clear`: removes every `localStorage` key starting
with the cache namespace (ignoring storage errors) and empties the memory
tier. -/
def clear {α : Type} (s : Store α) : Store α :=
  let s1 :=
    if s.lsAvailable then
      { s with ls := s.ls.filter (fun p => !(p.1.startsWith cachePfx)) }
    else s
  { s1 with memory := [] }

/-- `UniversalCacheManager.createSingleEntry` (with `Date.now()` passed as
`now`). -/
def createSingleEntry {α : Type} (data : α) (cacheTtl now : Nat) :
    CacheEntry α :=
  { data := data, timestamp := now, expiresAt := now + cacheTtl }

/-- `UniversalCacheManager.createInfiniteEntry` (with `Date.now()` passed as
`now`); the page list is the entry payload. -/
def createInfiniteEntry {π : Type} (pages : π) (cacheTtl now : Nat) :
    CacheEntry π :=
  { data := pages, timestamp := now, expiresAt := now + cacheTtl }

end UniversalCacheManager

/-- A post as validated by the fetch layer (`src/shared/api/posts.ts`). -/
structure Post where
  id : Nat
  userId : Nat
  title : String
  body : String
deriving DecidableEq

/-- Pagination metadata computed by `fetchPaginatedPosts`. -/
structure PaginationMeta where
  page : Nat
  limit : Nat
  total : Nat
  totalPages : Nat
  hasMore : Bool
  nextPage : Option Nat
deriving DecidableEq

/-- One fetched page: items plus pagination metadata. -/
structure PaginatedResponse (T : Type) where
  data : List T
  pagination : PaginationMeta
deriving DecidableEq

/-- JS-falsy check on a post's required fields, embedding
`!post.id || !post.userId || !post.title || !post.body`
(a numeric field is falsy exactly when it is `0`, a string field exactly when
it is empty). -/
def postInvalid (p : Post) : Bool :=
  p.id == 0 || p.userId == 0 || p.title == "" || p.body == ""

/-- Index of the first structurally invalid post, embedding the source's
`posts.forEach((post, index) => ...)` validation loop. -/
def firstInvalidIndexAux : List Post → Nat → Option Nat
  | [], _ => none
  | p :: rest, i =>
    if postInvalid p then some i else firstInvalidIndexAux rest (i + 1)

/-- Validation entry point of `fetchPaginatedPosts` / `fetchPosts`. -/
def firstInvalidIndex (posts : List Post) : Option Nat :=
  firstInvalidIndexAux posts 0

/-- The parts of an HTTP response consumed by the fetch layer: `ok`/`status`,
the parsed JSON body, and the `x-total-count` header. -/
structure HttpResponse where
  ok : Bool
  status : Nat
  body : List Post
  totalCountHeader : Option Nat
deriving DecidableEq

/-- Parameters of `fetchPaginatedPosts` (all optional, with source
defaults `page = 1`, `limit = 10`). -/
structure PaginationWithFiltersParams where
  page : Option Nat
  limit : Option Nat
  start : Option Nat
  userId : Option Nat
deriving DecidableEq

/-- Pure response-processing part of `fetchPaginatedPosts`: HTTP status check,
total-count resolution (header value, else 10 when filtering by user, else
100), pagination metadata (`totalPages = ceil(total / limit)`,
`hasMore = currentPage < totalPages`), and per-post structural validation.
Thrown errors are wrapped by the outer catch as in the source. -/
def fetchPaginatedPosts (params : PaginationWithFiltersParams)
    (resp : HttpResponse) : Except String (PaginatedResponse Post) :=
  let page := params.page.getD 1
  let limit := params.limit.getD 10
  if !resp.ok then
    .error ("Failed to fetch paginated posts: HTTP error! status: "
      ++ toString resp.status)
  else
    let totalCount :=
      match resp.totalCountHeader with
      | some t => t
      | none => if params.userId.isSome then 10 else 100
    let totalPages := (totalCount + limit - 1) / limit
    let currentPage :=
      match params.start with
      | some st => st / limit + 1
      | none => page
    let hasMore := decide (currentPage < totalPages)
    let nextPage := if hasMore then some (currentPage + 1) else none
    match firstInvalidIndex resp.body with
    | some i =>
      .error ("Failed to fetch paginated posts: Invalid post structure at index "
        ++ toString i)
    | none =>
      .ok { data := resp.body,
            pagination :=
              { page := currentPage, limit := limit, total := totalCount,
                totalPages := totalPages, hasMore := hasMore,
                nextPage := nextPage } }

/-- Pure response-processing part of `fetchPosts`: HTTP status check and
per-post structural validation, with errors wrapped by the outer catch. -/
def fetchPosts (resp : HttpResponse) : Except String (List Post) :=
  if !resp.ok then
    .error ("Failed to fetch posts: HTTP error! status: " ++ toString resp.status)
  else
    match firstInvalidIndex resp.body with
    | some i =>
      .error ("Failed to fetch posts: Invalid post structure at index "
        ++ toString i)
    | none => .ok resp.body

/-- The `${userId || 'all'}` component of the posts cache key: a JS-falsy
`userId` (absent, or the number `0`) renders as `"all"`. -/
def userTag (userId : Option Nat) : String :=
  match userId with
  | some u => if u = 0 then "all" else toString u
  | none => "all"

/-- Cache key built by `useInfinitePosts`:
`posts_infinite_limit_${limit}_user_${userId || 'all'}`. -/
def postsInfiniteCacheKey (limit : Nat) (userId : Option Nat) : String :=
  "posts_infinite_limit_" ++ toString limit ++ "_user_" ++ userTag userId

/-- The "all users" key deleted by `useFiltersCacheManager` when a specific
user is selected. -/
def allUsersKey (limit : Nat) : String :=
  "posts_infinite_limit_" ++ toString limit ++ "_user_all"

/-- The per-user key deleted by `useFiltersCacheManager` when "all users" is
selected. -/
def userCacheKey (limit userId : Nat) : String :=
  "posts_infinite_limit_" ++ toString limit ++ "_user_" ++ toString userId

/-- The cache-invalidation effect of `useFiltersCacheManager`, run when the
user-filter dimension changes: a specific selection deletes the "all users"
entry; the "all users" selection deletes the entries of users `1..10`. -/
def useFiltersCacheManagerEffect {α : Type} (s : Store α)
    (selectedUserId : Option Nat) (limit : Nat) : Store α :=
  match selectedUserId with
  | some _ => UniversalCacheManager.delete s (allUsersKey limit)
  | none =>
    (List.range' 1 10).foldl
      (fun st u => UniversalCacheManager.delete st (userCacheKey limit u)) s

/-- The per-instance request-coordination state shared by both hooks: the
current `AbortController` (identified by a fresh numeral), the set of aborted
controllers, and the next fresh identifier. -/
structure ControllerRef where
  current : Option Nat
  aborted : List Nat
  nextId : Nat
deriving DecidableEq

/-- A `ControllerRef` whose next fresh identifier has not already been used:
true of every state reachable from the initial one. -/
def ControllerRef.fresh (r : ControllerRef) : Prop :=
  r.current ≠ some r.nextId ∧ r.nextId ∉ r.aborted

instance (r : ControllerRef) : Decidable r.fresh := by
  unfold ControllerRef.fresh; infer_instance

namespace ApiUtils

/-- `ApiUtils.createRequestController`: aborts any ongoing request and
installs a fresh controller as the current one, returning its identifier. -/
def createRequestController (r : ControllerRef) : ControllerRef × Nat :=
  let r1 := match r.current with
    | some c => { r with aborted := c :: r.aborted }
    | none => r
  ({ r1 with current := some r1.nextId, nextId := r1.nextId + 1 }, r1.nextId)

/-- `ApiUtils.cleanupRequest`: clears the ref if the finishing controller is
still the current one. -/
def cleanupRequest (r : ControllerRef) (cid : Nat) : ControllerRef :=
  if r.current = some cid then { r with current := none } else r

end ApiUtils

/-- Configuration of `useInfiniteApi` (persistent-cache path). -/
structure UseInfiniteApiConfig where
  cacheKey : String
  cacheTtl : Nat
deriving DecidableEq

/-- `maxRetries` of `useInfiniteApi`. -/
def maxRetries : Nat := 3

/-- The state of one `useInfiniteApi` instance, together with the process-wide
cache store and a log of the pages requested over the network. -/
structure InfiniteApiState (T : Type) where
  pages : List (PaginatedResponse T)
  loading : Bool
  loadingMore : Bool
  error : Option String
  hasMore : Bool
  currentPage : Nat
  retryCount : Nat
  ctl : ControllerRef
  requestLog : List Nat
  cache : Store (List (PaginatedResponse T))
deriving DecidableEq

/-- `setCachedPages` of `useInfiniteApi`: writes the accumulated page list to
the cache under the configured key. -/
def setCachedPages {T : Type} (cfg : UseInfiniteApiConfig) (now : Nat)
    (cache : Store (List (PaginatedResponse T)))
    (newPages : List (PaginatedResponse T)) :
    Store (List (PaginatedResponse T)) :=
  UniversalCacheManager.set cache cfg.cacheKey
    (UniversalCacheManager.createInfiniteEntry newPages cfg.cacheTtl now)

/-- Everything `fetchPage` runs before `await fetcher(...)`: controller
creation, loading flags, error reset, and the network request itself (logged). -/
def beginFetch {T : Type} (s : InfiniteApiState T) (page : Nat)
    (showLoading : Bool) : InfiniteApiState T × Nat :=
  let rc := ApiUtils.createRequestController s.ctl
  let s1 := { s with ctl := rc.1 }
  let s2 :=
    if showLoading then
      let sl := if page = 1 then { s1 with loading := true }
        else { s1 with loadingMore := true }
      { sl with error := none }
    else s1
  ({ s2 with requestLog := s2.requestLog ++ [page] }, rc.2)

/-- Everything `fetchPage` runs after `await fetcher(...)`: the
`controller.signal.aborted` early returns, the success/failure state updates
and cache write, the `finally` block, and `ApiUtils.cleanupRequest`. -/
def finishFetch {T : Type} (cfg : UseInfiniteApiConfig) (now : Nat)
    (s : InfiniteApiState T) (cid page : Nat) (showLoading isRefetch : Bool)
    (result : Except String (PaginatedResponse T)) : InfiniteApiState T :=
  let s1 :=
    if cid ∈ s.ctl.aborted then s
    else
      match result with
      | .ok r =>
        let newPages :=
          if page = 1 && (isRefetch || s.pages.isEmpty) then [r]
          else s.pages ++ [r]
        { s with
            retryCount := 0,
            pages := newPages,
            cache := setCachedPages cfg now s.cache newPages,
            hasMore := r.pagination.hasMore,
            error := none,
            currentPage := r.pagination.page }
      | .error msg =>
        { s with retryCount := s.retryCount + 1, error := some msg }
  let s2 :=
    if cid ∈ s1.ctl.aborted then s1
    else if showLoading then { s1 with loading := false, loadingMore := false }
    else s1
  { s2 with ctl := ApiUtils.cleanupRequest s2.ctl cid }

/-- `fetchPage` with a synchronously completing fetcher (begin immediately
followed by finish, no interleaved request). -/
def fetchPage {T : Type} (fetcher : Nat → Except String (PaginatedResponse T))
    (cfg : UseInfiniteApiConfig) (now : Nat) (s : InfiniteApiState T)
    (page : Nat) (showLoading isRefetch : Bool) : InfiniteApiState T :=
  let bf := beginFetch s page showLoading
  finishFetch cfg now bf.1 bf.2 page showLoading isRefetch (fetcher page)

/-- `loadMore`: a no-op unless `hasMore` holds and nothing is loading;
otherwise fetches `currentPage + 1`. -/
def loadMore {T : Type} (fetcher : Nat → Except String (PaginatedResponse T))
    (cfg : UseInfiniteApiConfig) (now : Nat) (s : InfiniteApiState T) :
    InfiniteApiState T :=
  if !s.hasMore || s.loadingMore || s.loading then s
  else fetchPage fetcher cfg now s (s.currentPage + 1) true false

/-- The synchronous state updates `refetch` performs before fetching. -/
def refetchReset {T : Type} (s : InfiniteApiState T) : InfiniteApiState T :=
  { s with retryCount := 0, currentPage := 1, pages := [],
           hasMore := true, error := none }

/-- `refetch`: reset, then fetch page 1 with `isRefetch = true`. -/
def refetch {T : Type} (fetcher : Nat → Except String (PaginatedResponse T))
    (cfg : UseInfiniteApiConfig) (now : Nat) (s : InfiniteApiState T) :
    InfiniteApiState T :=
  fetchPage fetcher cfg now (refetchReset s) 1 true true

/-- `invalidateCache`: delete the cache entry for this key, then `refetch`. -/
def invalidateCache {T : Type}
    (fetcher : Nat → Except String (PaginatedResponse T))
    (cfg : UseInfiniteApiConfig) (now : Nat) (s : InfiniteApiState T) :
    InfiniteApiState T :=
  refetch fetcher cfg now
    { s with cache := UniversalCacheManager.delete s.cache cfg.cacheKey }

/-- Pre-`await` part of the initial-load effect's `fetchFirstPage`. -/
def beginFirstFetch {T : Type} (s : InfiniteApiState T) :
    InfiniteApiState T × Nat :=
  let rc := ApiUtils.createRequestController s.ctl
  ({ s with ctl := rc.1, loading := true, error := none,
            requestLog := s.requestLog ++ [1] }, rc.2)

/-- Post-`await` part of the initial-load effect's `fetchFirstPage`: on
success the page list becomes exactly `[result]` and the cache is updated. -/
def finishFirstFetch {T : Type} (cfg : UseInfiniteApiConfig) (now : Nat)
    (s : InfiniteApiState T) (cid : Nat)
    (result : Except String (PaginatedResponse T)) : InfiniteApiState T :=
  let s1 :=
    if cid ∈ s.ctl.aborted then s
    else
      match result with
      | .ok r =>
        { s with
            retryCount := 0,
            pages := [r],
            hasMore := r.pagination.hasMore,
            error := none,
            currentPage := r.pagination.page,
            cache := UniversalCacheManager.set s.cache cfg.cacheKey
              (UniversalCacheManager.createInfiniteEntry [r] cfg.cacheTtl now) }
      | .error msg =>
        { s with retryCount := s.retryCount + 1, error := some msg }
  let s2 := if cid ∈ s1.ctl.aborted then s1 else { s1 with loading := false }
  { s2 with ctl := ApiUtils.cleanupRequest s2.ctl cid }

/-- `fetchFirstPage` with a synchronously completing fetcher. -/
def fetchFirstPage {T : Type}
    (fetcher : Nat → Except String (PaginatedResponse T))
    (cfg : UseInfiniteApiConfig) (now : Nat) (s : InfiniteApiState T) :
    InfiniteApiState T :=
  let bf := beginFirstFetch s
  finishFirstFetch cfg now bf.1 bf.2 (fetcher 1)

/-- The initial-load effect of `useInfiniteApi`: fires only when enabled, with
no pages yet, and with the retry counter strictly below `maxRetries`. -/
def initialLoadEffect {T : Type} (enabled : Bool)
    (fetcher : Nat → Except String (PaginatedResponse T))
    (cfg : UseInfiniteApiConfig) (now : Nat) (s : InfiniteApiState T) :
    InfiniteApiState T :=
  if !enabled then s
  else if !s.pages.isEmpty then s
  else if maxRetries ≤ s.retryCount then s
  else fetchFirstPage fetcher cfg now s

/-- The flattened item list exposed as `data`, embedding
`pages.reduce((acc, page) => [...acc, ...page.data], [])`. -/
def flatData {T : Type} (pages : List (PaginatedResponse T)) : List T :=
  pages.foldl (fun acc p => acc ++ p.data) []

/-- Synchronous state initialisation of `useInfiniteApi` from the cache
(`getInitialData` feeding the `pages`, `hasMore` and `currentPageRef`
initialisers; the source performs the cache read once per initialiser, which
is idempotent, so a single read is modelled). -/
def useInfiniteApiInit {T : Type} (enabled : Bool)
    (cfg : UseInfiniteApiConfig) (now : Nat)
    (cache : Store (List (PaginatedResponse T))) : InfiniteApiState T :=
  let ge :=
    if enabled then UniversalCacheManager.get now cache cfg.cacheKey
    else (cache, none)
  let initialPages :=
    match ge.2 with
    | some entry => entry.data
    | none => []
  { pages := initialPages,
    loading := false, loadingMore := false, error := none,
    hasMore :=
      match initialPages.getLast? with
      | some lastPage => lastPage.pagination.hasMore
      | none => true,
    currentPage :=
      match initialPages.getLast? with
      | some lastPage => lastPage.pagination.page
      | none => 1,
    retryCount := 0,
    ctl := { current := none, aborted := [], nextId := 0 },
    requestLog := [],
    cache := ge.1 }

/-- Configuration of `useApi` (persistent-cache path). -/
structure UseApiConfig where
  cacheKey : String
  cacheTtl : Nat
deriving DecidableEq

/-- Default `staleThreshold` of `ApiUtils.isCacheStale` (30 seconds). -/
def defaultStaleThreshold : Nat := 30 * 1000

namespace ApiUtils

/-- `ApiUtils.getCachedData` (persistent path): reads through the cache
manager and projects the payload. -/
def getCachedData {T : Type} (now : Nat) (cache : Store T) (cacheKey : String) :
    Store T × Option T :=
  let ge := UniversalCacheManager.get now cache cacheKey
  match ge.2 with
  | some entry => (ge.1, some entry.data)
  | none => (ge.1, none)

/-- `ApiUtils.setCachedData` (persistent path). -/
def setCachedData {T : Type} (now : Nat) (cache : Store T) (cacheKey : String)
    (data : T) (cacheTtl : Nat) : Store T :=
  UniversalCacheManager.set cache cacheKey
    (UniversalCacheManager.createSingleEntry data cacheTtl now)

/-- `ApiUtils.isCacheStale` (persistent path): a missing entry is stale; an
entry is stale when `now - timestamp > staleThreshold` (in JS a timestamp in
the future yields a negative difference, never above the non-negative
threshold, which truncated `Nat` subtraction models exactly). -/
def isCacheStale {T : Type} (now : Nat) (cache : Store T) (cacheKey : String)
    (staleThreshold : Nat) : Store T × Bool :=
  let ge := UniversalCacheManager.get now cache cacheKey
  match ge.2 with
  | none => (ge.1, true)
  | some entry => (ge.1, decide (now - entry.timestamp > staleThreshold))

end ApiUtils

/-- The state of one `useApi` instance, with the process-wide cache store for
its payload type and a count of the network requests issued. -/
structure ApiState (T : Type) where
  data : Option T
  loading : Bool
  error : Option String
  ctl : ControllerRef
  requestCount : Nat
  cache : Store T
deriving DecidableEq

/-- Pre-`await` part of `useApi`'s `fetchData`: controller creation, the
request itself, and (when `showLoading`) the loading flag and error reset. -/
def beginFetchData {T : Type} (s : ApiState T) (showLoading : Bool) :
    ApiState T × Nat :=
  let rc := ApiUtils.createRequestController s.ctl
  let s1 := { s with ctl := rc.1, requestCount := s.requestCount + 1 }
  if showLoading then ({ s1 with loading := true, error := none }, rc.2)
  else (s1, rc.2)

/-- Post-`await` part of `useApi`'s `fetchData`: the aborted checks, the
success/failure updates and cache write, the `finally` block and cleanup. -/
def finishFetchData {T : Type} (cfg : UseApiConfig) (now : Nat)
    (s : ApiState T) (cid : Nat) (showLoading : Bool)
    (result : Except String T) : ApiState T :=
  let s1 :=
    if cid ∈ s.ctl.aborted then s
    else
      match result with
      | .ok r =>
        { s with data := some r, error := none,
                 cache := ApiUtils.setCachedData now s.cache cfg.cacheKey r
                   cfg.cacheTtl }
      | .error msg => { s with error := some msg }
  let s2 :=
    if cid ∈ s1.ctl.aborted then s1
    else if showLoading then { s1 with loading := false }
    else s1
  { s2 with ctl := ApiUtils.cleanupRequest s2.ctl cid }

/-- `fetchData` with a synchronously completing fetcher. -/
def fetchData {T : Type} (fetcher : Except String T) (cfg : UseApiConfig)
    (now : Nat) (s : ApiState T) (showLoading : Bool) : ApiState T :=
  let bf := beginFetchData s showLoading
  finishFetchData cfg now bf.1 bf.2 showLoading fetcher

/-- The initial-load effect of `useApi`: with data present it background
refetches exactly when the cache is stale (no loading flag); with no data it
fetches in the foreground. -/
def useApiInitialEffect {T : Type} (enabled : Bool)
    (fetcher : Except String T) (cfg : UseApiConfig) (now : Nat)
    (s : ApiState T) : ApiState T :=
  if !enabled then s
  else
    match s.data with
    | some _ =>
      let cs := ApiUtils.isCacheStale now s.cache cfg.cacheKey
        defaultStaleThreshold
      let s1 := { s with cache := cs.1 }
      if cs.2 then fetchData fetcher cfg now s1 false else s1
    | none => fetchData fetcher cfg now s true

/-! Concrete scenario inputs used by the closed theorems below. -/

/-- A cold store with an available durable tier. -/
def emptyStore (α : Type) : Store α :=
  { lsAvailable := true, ls := [], memory := [] }

/-- A structurally valid post with the given id. -/
def mkPost (i : Nat) : Post :=
  { id := i, userId := 1, title := "post title", body := "post body" }

/-- The dataset of a server holding 25 posts. -/
def serverPosts25 : List Post := (List.range 25).map (fun i => mkPost (i + 1))

/-- The JSONPlaceholder `_page`/`_limit` slice of the 25-post dataset. -/
def serverPage25 (page limit : Nat) : List Post :=
  (serverPosts25.drop ((page - 1) * limit)).take limit

/-- The posts fetcher of the 25-item scenario: `fetchPaginatedPosts` applied
to the server's slice with an `x-total-count: 25` header. -/
def c3Fetcher (page : Nat) : Except String (PaginatedResponse Post) :=
  fetchPaginatedPosts
    { page := some page, limit := some 10, start := none, userId := none }
    { ok := true, status := 200, body := serverPage25 page 10,
      totalCountHeader := some 25 }

/-- The hook configuration of the 25-item scenario (pageSize 10, all users,
default 5-minute TTL). -/
def c3Cfg : UseInfiniteApiConfig :=
  { cacheKey := postsInfiniteCacheKey 10 none, cacheTtl := 300000 }

/-- Scenario state after mounting with a cold cache. -/
def c3s0 : InfiniteApiState Post :=
  useInfiniteApiInit true c3Cfg 0 (emptyStore _)

/-- Scenario state after the initial load (page 1). -/
def c3s1 : InfiniteApiState Post := initialLoadEffect true c3Fetcher c3Cfg 0 c3s0

/-- Scenario state after the first `loadMore()` (page 2). -/
def c3s2 : InfiniteApiState Post := loadMore c3Fetcher c3Cfg 0 c3s1

/-- Scenario state after the second `loadMore()` (page 3, exhausting the 25
items). -/
def c3s3 : InfiniteApiState Post := loadMore c3Fetcher c3Cfg 0 c3s2

/-- Scenario state after a further `loadMore()` once everything is loaded. -/
def c3s4 : InfiniteApiState Post := loadMore c3Fetcher c3Cfg 0 c3s3

/-- A store whose durable tier is unavailable and whose fast tier holds an
entry with `createdAt = 0`, `ttl = 100`, `expiresAt = 100`. -/
def c1CounterStore : Store Nat :=
  { lsAvailable := false, ls := [],
    memory := [("k", { data := 42, timestamp := 0, expiresAt := 100 })] }

/-- A store whose durable tier holds an entry with `createdAt = 0`,
`ttl = 100`, `expiresAt = 100` under the cache namespace. -/
def c1WitnessStore : Store Nat :=
  { lsAvailable := true,
    ls := [("api_cache_k", { data := 5, timestamp := 0, expiresAt := 100 })],
    memory := [] }

/-- A store holding a cached page sequence for user 3 at pageSize 10 (fast
tier; the durable tier is unavailable in this scenario). -/
def c8CounterStore : Store Nat :=
  { lsAvailable := false, ls := [],
    memory := [(userCacheKey 10 3, { data := 3, timestamp := 0, expiresAt := 1000 })] }

/-- `useApi` configuration of the background-refresh scenario. -/
def c9Cfg : UseApiConfig := { cacheKey := "k", cacheTtl := 300000 }

/-- `useApi` state of the background-refresh scenario: payload `7` cached at
time 0 (expires at 300000) and already shown to the caller; current time
40000 makes it stale (older than 30s) but unexpired. -/
def c9State : ApiState Nat :=
  { data := some 7, loading := false, error := none,
    ctl := { current := none, aborted := [], nextId := 0 },
    requestCount := 0,
    cache := { lsAvailable := true,
               ls := [("api_cache_k", { data := 7, timestamp := 0, expiresAt := 300000 })],
               memory := [] } }

/-- A controller state whose retry counter has reached the ceiling after
three failed attempts. -/
def c5State : InfiniteApiState Post :=
  { pages := [], loading := false, loadingMore := false,
    error := some "HTTP error! status: 500", hasMore := true,
    currentPage := 1, retryCount := 3,
    ctl := { current := none, aborted := [], nextId := 3 },
    requestLog := [], cache := emptyStore _ }

/-- A fresh page-1 result used to exercise `refetch`. -/
def c6WitnessPage : PaginatedResponse Post :=
  { data := [mkPost 100],
    pagination := { page := 1, limit := 10, total := 1, totalPages := 1,
                    hasMore := false, nextPage := none } }

/-- A parsed response whose first post has the falsy field `id = 0`. -/
def c10BadResp : HttpResponse :=
  { ok := true, status := 200,
    body := [{ id := 0, userId := 1, title := "t", body := "b" }],
    totalCountHeader := none }

/-- Decimal value of a digit character (specification helper used to invert
the decimal rendering in the cache-key templates). -/
def chVal (c : Char) : Nat := c.toNat - Char.toNat '0'

/-- Value of a most-significant-first decimal digit string (specification
helper: a left inverse of `Nat.repr`). -/
def listVal (ds : List Char) : Nat :=
  ds.foldl (fun acc c => 10 * acc + chVal c) 0

/-! Helper lemmas about the association-list maps and the cache manager. -/

theorem AList.lookup_insert_self {α : Type} (m : AList α) (k : String) (v : α) :
    (m.insert k v).lookup k = some v := by
  simp [AList.insert, AList.lookup]

theorem AList.lookup_insert_ne {α : Type} (m : AList α) (k k' : String) (v : α)
    (h : k ≠ k') : (m.insert k v).lookup k' = m.lookup k' := by
  simp [AList.insert, AList.lookup, h]

theorem AList.lookup_erase_self {α : Type} (m : AList α) (k : String) :
    (m.erase k).lookup k = none := by
  induction m with
  | nil => rfl
  | cons p rest ih =>
    simp only [AList.erase, List.filter_cons] at ih ⊢
    by_cases h : p.1 = k
    · simp [h, ih]
    · simpa [AList.lookup, h] using ih

theorem AList.lookup_erase_ne {α : Type} (m : AList α) (k k' : String)
    (h : k' ≠ k) : (m.erase k).lookup k' = m.lookup k' := by
  induction m with
  | nil => rfl
  | cons p rest ih =>
    simp only [AList.erase, List.filter_cons] at ih ⊢
    by_cases hp : p.1 = k
    · simp [AList.lookup, hp, Ne.symm h, ih]
    · simp [AList.lookup, hp, ih]

theorem UniversalCacheManager.delete_memory {α : Type} (s : Store α)
    (k : String) :
    (UniversalCacheManager.delete s k).memory = s.memory.erase k := by
  unfold UniversalCacheManager.delete lsRemoveItem
  by_cases h : s.lsAvailable <;> simp [h]

theorem UniversalCacheManager.delete_lsAvailable {α : Type} (s : Store α)
    (k : String) :
    (UniversalCacheManager.delete s k).lsAvailable = s.lsAvailable := by
  unfold UniversalCacheManager.delete lsRemoveItem
  by_cases h : s.lsAvailable <;> simp [h]

theorem UniversalCacheManager.delete_ls_of_available {α : Type} (s : Store α)
    (k : String) (h : s.lsAvailable = true) :
    (UniversalCacheManager.delete s k).ls = s.ls.erase (cachePfx ++ k) := by
  unfold UniversalCacheManager.delete lsRemoveItem
  simp [h]

theorem UniversalCacheManager.delete_ls_of_unavailable {α : Type} (s : Store α)
    (k : String) (h : s.lsAvailable = false) :
    (UniversalCacheManager.delete s k).ls = s.ls := by
  unfold UniversalCacheManager.delete lsRemoveItem
  simp [h]

theorem UniversalCacheManager.set_memory {α : Type} (s : Store α) (k : String)
    (e : CacheEntry α) :
    (UniversalCacheManager.set s k e).memory = s.memory.insert k e := by
  unfold UniversalCacheManager.set lsSetItem
  by_cases h : s.lsAvailable <;> simp [h]

theorem UniversalCacheManager.set_lsAvailable {α : Type} (s : Store α)
    (k : String) (e : CacheEntry α) :
    (UniversalCacheManager.set s k e).lsAvailable = s.lsAvailable := by
  unfold UniversalCacheManager.set lsSetItem
  by_cases h : s.lsAvailable <;> simp [h]

/-- **C1** (amended).  TTL correctness holds on the durable-tier path: when the
durable tier is available and holds the entry, a `get` strictly after
`expiresAt = createdAt + ttl` returns absent and purges the entry from both
tiers, and a `get` at or before `expiresAt` returns the stored entry.  On the
fast-tier-only path (durable tier unavailable), a `get` at or before
`expiresAt` also returns the stored entry — but the expiry check is not
performed there (see `c1_counterexample`). -/
theorem c1_ttl_correctness {α : Type} (k : String) (s : Store α) (payload : α)
    (createdAt ttl now : Nat) (_httl : 0 < ttl) :
    (s.lsAvailable = true →
      s.ls.lookup (cachePfx ++ k) =
        some { data := payload, timestamp := createdAt, expiresAt := createdAt + ttl } →
      ((createdAt + ttl < now →
          (UniversalCacheManager.get now s k).2 = none ∧
          (UniversalCacheManager.get now s k).1.ls.lookup (cachePfx ++ k) = none ∧
          (UniversalCacheManager.get now s k).1.memory.lookup k = none) ∧
        (now ≤ createdAt + ttl →
          (UniversalCacheManager.get now s k).2 =
            some { data := payload, timestamp := createdAt, expiresAt := createdAt + ttl }))) ∧
    (s.lsAvailable = false →
      s.memory.lookup k =
        some { data := payload, timestamp := createdAt, expiresAt := createdAt + ttl } →
      now ≤ createdAt + ttl →
      (UniversalCacheManager.get now s k).2 =
        some { data := payload, timestamp := createdAt, expiresAt := createdAt + ttl }) := by
  constructor
  · intro hls hlook
    constructor
    · intro hexp
      have hget : UniversalCacheManager.get now s k =
          (UniversalCacheManager.delete s k, none) := by
        unfold UniversalCacheManager.get lsGetItem
        simp [hls, hlook, hexp]
      refine ⟨by rw [hget], ?_, ?_⟩
      · rw [hget]
        rw [UniversalCacheManager.delete_ls_of_available s k hls]
        exact AList.lookup_erase_self s.ls (cachePfx ++ k)
      · rw [hget]
        rw [UniversalCacheManager.delete_memory s k]
        exact AList.lookup_erase_self s.memory k
    · intro hne
      unfold UniversalCacheManager.get lsGetItem
      simp [hls, hlook, Nat.not_lt.mpr hne]
  · intro hls hmem _hne
    unfold UniversalCacheManager.get lsGetItem
    simp [hls, hmem]

/-- Witness for `c1_ttl_correctness` at a concrete store (entry created at 0
with ttl 100): a get at 101 is absent, a get at 50 returns the entry. -/
theorem c1_ttl_correctness_witness :
    (0 : Nat) < 100 ∧
    (UniversalCacheManager.get 101 c1WitnessStore "k").2 = none ∧
    (UniversalCacheManager.get 50 c1WitnessStore "k").2 =
      some { data := 5, timestamp := 0, expiresAt := 100 } :=
  ⟨by decide,
   (((c1_ttl_correctness "k" c1WitnessStore 5 0 100 101 (by decide)).1
      (by decide) (by decide)).1 (by decide)).1,
   ((c1_ttl_correctness "k" c1WitnessStore 5 0 100 50 (by decide)).1
      (by decide) (by decide)).2 (by decide)⟩

/-- **C1** counterexample: with the durable tier unavailable and the entry
(createdAt 0, ttl 100, expiresAt 100) present only in the fast tier, a `get`
at time 101 — strictly after `expiresAt`, with `ttl > 0` — returns the stored
entry instead of absent, and the entry is not removed from the fast tier. -/
theorem c1_counterexample :
    (0 : Nat) < 100 ∧ (100 : Nat) < 101 ∧
    (UniversalCacheManager.get 101 c1CounterStore "k").2 =
      some { data := 42, timestamp := 0, expiresAt := 100 } ∧
    (UniversalCacheManager.get 101 c1CounterStore "k").1.memory.lookup "k" ≠
      none := by decide

/-- **C4** (confirmed).  With every durable-tier write throwing
(`lsAvailable = false`), `set` still stores the entry in the fast tier, a
subsequent `get` within TTL still returns it, `delete` still removes it, and
`clear` still empties the fast tier; all four operations are total functions
in this embedding because every durable-tier failure is caught inside them. -/
theorem c4_storage_degradation {α : Type} (s : Store α) (k : String)
    (e : CacheEntry α) (now : Nat) (h : s.lsAvailable = false) :
    (UniversalCacheManager.set s k e).memory.lookup k = some e ∧
    (UniversalCacheManager.set s k e).lsAvailable = false ∧
    (now ≤ e.expiresAt →
      (UniversalCacheManager.get now (UniversalCacheManager.set s k e) k).2 =
        some e) ∧
    (UniversalCacheManager.delete (UniversalCacheManager.set s k e) k).memory.lookup k =
      none ∧
    (UniversalCacheManager.clear (UniversalCacheManager.set s k e)).memory = [] := by
  have hset : (UniversalCacheManager.set s k e).lsAvailable = false := by
    rw [UniversalCacheManager.set_lsAvailable]; exact h
  refine ⟨?_, hset, ?_, ?_, ?_⟩
  · rw [UniversalCacheManager.set_memory]
    exact AList.lookup_insert_self s.memory k e
  · intro _hne
    unfold UniversalCacheManager.get lsGetItem
    simp [hset, UniversalCacheManager.set_memory,
      AList.lookup_insert_self]
  · rw [UniversalCacheManager.delete_memory, UniversalCacheManager.set_memory]
    exact AList.lookup_erase_self (s.memory.insert k e) k
  · unfold UniversalCacheManager.clear
    simp [hset]

/-- Witness for `c4_storage_degradation` at a concrete store with the durable
tier unavailable. -/
theorem c4_storage_degradation_witness :
    (UniversalCacheManager.set
        ({ lsAvailable := false, ls := [], memory := [] } : Store Nat) "k"
        { data := 9, timestamp := 0, expiresAt := 100 }).memory.lookup "k" =
      some { data := 9, timestamp := 0, expiresAt := 100 } ∧
    (UniversalCacheManager.get 50
        (UniversalCacheManager.set
          ({ lsAvailable := false, ls := [], memory := [] } : Store Nat) "k"
          { data := 9, timestamp := 0, expiresAt := 100 }) "k").2 =
      some { data := 9, timestamp := 0, expiresAt := 100 } :=
  ⟨(c4_storage_degradation { lsAvailable := false, ls := [], memory := [] } "k"
      { data := 9, timestamp := 0, expiresAt := 100 } 50 rfl).1,
   (c4_storage_degradation { lsAvailable := false, ls := [], memory := [] } "k"
      { data := 9, timestamp := 0, expiresAt := 100 } 50 rfl).2.2.1 (by decide)⟩

/-- **C3** (confirmed).  From a cold cache with pageSize 10 and a server total
of 25, the initial load plus two `loadMore()` calls yield pages
`[page 1 (10 items, hasMore), page 2 (10 items, hasMore), page 3 (5 items,
no more)]`; the flattened list is the 25 items in page order; a further
`loadMore()` changes nothing and issues no request (the request log stays
`[1, 2, 3]`). -/
theorem c3_pagination_accumulation :
    c3s3.pages.map (fun p => (p.data.length, p.pagination.page, p.pagination.hasMore)) =
      [(10, 1, true), (10, 2, true), (5, 3, false)] ∧
    flatData c3s3.pages = serverPosts25 ∧
    (flatData c3s3.pages).length = 25 ∧
    c3s4 = c3s3 ∧
    c3s3.requestLog = [1, 2, 3] ∧
    c3s3.hasMore = false := by decide

/-! Helper lemmas about the request coordinator and the split fetch steps. -/

theorem ApiUtils.createRequestController_spec (r : ControllerRef) :
    (ApiUtils.createRequestController r).1.current = some r.nextId ∧
    (ApiUtils.createRequestController r).1.nextId = r.nextId + 1 ∧
    (ApiUtils.createRequestController r).2 = r.nextId ∧
    (ApiUtils.createRequestController r).1.aborted =
      (match r.current with
       | some c => c :: r.aborted
       | none => r.aborted) := by
  unfold ApiUtils.createRequestController
  rcases hc : r.current with _ | c <;> simp [hc]

theorem ApiUtils.cleanupRequest_aborted (r : ControllerRef) (cid : Nat) :
    (ApiUtils.cleanupRequest r cid).aborted = r.aborted := by
  unfold ApiUtils.cleanupRequest
  split <;> rfl

theorem ApiUtils.cleanupRequest_current_ne (r : ControllerRef) (cid x : Nat)
    (h : r.current ≠ some x) :
    (ApiUtils.cleanupRequest r cid).current ≠ some x := by
  unfold ApiUtils.cleanupRequest
  split <;> simp [h]

theorem beginFetch_proj {T : Type} (s : InfiniteApiState T) (page : Nat)
    (sh : Bool) :
    ((beginFetch s page sh).1).retryCount = s.retryCount ∧
    ((beginFetch s page sh).1).pages = s.pages ∧
    ((beginFetch s page sh).1).cache = s.cache ∧
    ((beginFetch s page sh).1).requestLog = s.requestLog ++ [page] ∧
    ((beginFetch s page sh).1).ctl = (ApiUtils.createRequestController s.ctl).1 ∧
    (beginFetch s page sh).2 = (ApiUtils.createRequestController s.ctl).2 := by
  simp only [beginFetch]
  refine ⟨?_, ?_, ?_, ?_, ?_, ?_⟩ <;>
    first
    | trivial
    | (split_ifs <;> rfl)

theorem finishFetch_ctl {T : Type} (cfg : UseInfiniteApiConfig) (now : Nat)
    (s : InfiniteApiState T) (cid page : Nat) (sh ir : Bool)
    (r : Except String (PaginatedResponse T)) :
    (finishFetch cfg now s cid page sh ir r).ctl =
      ApiUtils.cleanupRequest s.ctl cid := by
  simp only [finishFetch]
  by_cases h : cid ∈ s.ctl.aborted
  · simp [h]
  · cases r <;> simp [h] <;> split_ifs <;> rfl

theorem finishFetch_aborted_id {T : Type} (cfg : UseInfiniteApiConfig)
    (now : Nat) (s : InfiniteApiState T) (cid page : Nat) (sh ir : Bool)
    (r : Except String (PaginatedResponse T))
    (h1 : cid ∈ s.ctl.aborted) (h2 : s.ctl.current ≠ some cid) :
    finishFetch cfg now s cid page sh ir r = s := by
  simp only [finishFetch, ApiUtils.cleanupRequest]
  simp [h1, h2]

/-- **C2** (confirmed).  For two fetches A then B issued by the same
controller instance, with B begun strictly after A (so B's
`createRequestController` aborts A's handle), A's completion never modifies
the instance state — pages, flags, error, request coordination, or the cache,
all carried by `InfiniteApiState` — and under either completion order the
final state is exactly the state produced by B's completion. -/
theorem c2_race_ordering {T : Type} (cfg : UseInfiniteApiConfig)
    (nowA nowB : Nat) (s0 : InfiniteApiState T) (pA pB : Nat)
    (shA shB irA irB : Bool) (rA rB : Except String (PaginatedResponse T)) :
    finishFetch cfg nowA (beginFetch (beginFetch s0 pA shA).1 pB shB).1
        (beginFetch s0 pA shA).2 pA shA irA rA =
      (beginFetch (beginFetch s0 pA shA).1 pB shB).1 ∧
    finishFetch cfg nowA
        (finishFetch cfg nowB (beginFetch (beginFetch s0 pA shA).1 pB shB).1
          (beginFetch (beginFetch s0 pA shA).1 pB shB).2 pB shB irB rB)
        (beginFetch s0 pA shA).2 pA shA irA rA =
      finishFetch cfg nowB (beginFetch (beginFetch s0 pA shA).1 pB shB).1
        (beginFetch (beginFetch s0 pA shA).1 pB shB).2 pB shB irB rB ∧
    finishFetch cfg nowB
        (finishFetch cfg nowA (beginFetch (beginFetch s0 pA shA).1 pB shB).1
          (beginFetch s0 pA shA).2 pA shA irA rA)
        (beginFetch (beginFetch s0 pA shA).1 pB shB).2 pB shB irB rB =
      finishFetch cfg nowB (beginFetch (beginFetch s0 pA shA).1 pB shB).1
        (beginFetch (beginFetch s0 pA shA).1 pB shB).2 pB shB irB rB := by
  obtain ⟨-, -, -, -, hActl, hAid⟩ := beginFetch_proj s0 pA shA
  obtain ⟨-, -, -, -, hBctl, hBid⟩ :=
    beginFetch_proj (beginFetch s0 pA shA).1 pB shB
  obtain ⟨hAcur, hAnext, hAid2, -⟩ :=
    ApiUtils.createRequestController_spec s0.ctl
  obtain ⟨hBcur, -, hBid2, hBab⟩ :=
    ApiUtils.createRequestController_spec (beginFetch s0 pA shA).1.ctl
  have ha : (beginFetch s0 pA shA).2 = s0.ctl.nextId := by rw [hAid, hAid2]
  have hb : (beginFetch (beginFetch s0 pA shA).1 pB shB).2 =
      s0.ctl.nextId + 1 := by
    rw [hBid, hBid2, hActl, hAnext]
  have hmemA : (beginFetch s0 pA shA).2 ∈
      ((beginFetch (beginFetch s0 pA shA).1 pB shB).1).ctl.aborted := by
    rw [hBctl, hBab, hActl, hAcur, ha]
    exact List.mem_cons_self _ _
  have hcurB : ((beginFetch (beginFetch s0 pA shA).1 pB shB).1).ctl.current ≠
      some (beginFetch s0 pA shA).2 := by
    rw [hBctl, hBcur, hActl, hAnext, ha]
    simp
  have conj1 := finishFetch_aborted_id cfg nowA
    (beginFetch (beginFetch s0 pA shA).1 pB shB).1
    (beginFetch s0 pA shA).2 pA shA irA rA hmemA hcurB
  refine ⟨conj1, ?_, by rw [conj1]⟩
  have hctlB := finishFetch_ctl cfg nowB
    (beginFetch (beginFetch s0 pA shA).1 pB shB).1
    (beginFetch (beginFetch s0 pA shA).1 pB shB).2 pB shB irB rB
  apply finishFetch_aborted_id
  · rw [hctlB, ApiUtils.cleanupRequest_aborted]
    exact hmemA
  · rw [hctlB]
    exact ApiUtils.cleanupRequest_current_ne _ _ _ hcurB

theorem finishFetch_requestLog {T : Type} (cfg : UseInfiniteApiConfig)
    (now : Nat) (s : InfiniteApiState T) (cid page : Nat) (sh ir : Bool)
    (r : Except String (PaginatedResponse T)) :
    (finishFetch cfg now s cid page sh ir r).requestLog = s.requestLog := by
  simp only [finishFetch]
  by_cases h : cid ∈ s.ctl.aborted
  · simp [h]
  · cases r <;> simp [h] <;> split_ifs <;> rfl

theorem finishFetch_ok_proj {T : Type} (cfg : UseInfiniteApiConfig) (now : Nat)
    (s : InfiniteApiState T) (cid page : Nat) (sh ir : Bool)
    (r : PaginatedResponse T) (h : cid ∉ s.ctl.aborted) :
    (finishFetch cfg now s cid page sh ir (.ok r)).pages =
      (if page = 1 && (ir || s.pages.isEmpty) then [r] else s.pages ++ [r]) ∧
    (finishFetch cfg now s cid page sh ir (.ok r)).retryCount = 0 ∧
    (finishFetch cfg now s cid page sh ir (.ok r)).error = none ∧
    (finishFetch cfg now s cid page sh ir (.ok r)).hasMore =
      r.pagination.hasMore ∧
    (finishFetch cfg now s cid page sh ir (.ok r)).currentPage =
      r.pagination.page ∧
    (finishFetch cfg now s cid page sh ir (.ok r)).cache =
      setCachedPages cfg now s.cache
        (if page = 1 && (ir || s.pages.isEmpty) then [r] else s.pages ++ [r]) := by
  simp only [finishFetch]
  refine ⟨?_, ?_, ?_, ?_, ?_, ?_⟩ <;> (simp [h]; split_ifs <;> rfl)

theorem finishFetch_error_proj {T : Type} (cfg : UseInfiniteApiConfig)
    (now : Nat) (s : InfiniteApiState T) (cid page : Nat) (sh ir : Bool)
    (msg : String) (h : cid ∉ s.ctl.aborted) :
    (finishFetch cfg now s cid page sh ir (.error msg)).retryCount =
      s.retryCount + 1 ∧
    (finishFetch cfg now s cid page sh ir (.error msg)).error = some msg ∧
    (finishFetch cfg now s cid page sh ir (.error msg)).pages = s.pages ∧
    (finishFetch cfg now s cid page sh ir (.error msg)).cache = s.cache := by
  simp only [finishFetch]
  refine ⟨?_, ?_, ?_, ?_⟩ <;> (simp [h]; split_ifs <;> rfl)

theorem fresh_beginFetch {T : Type} (s : InfiniteApiState T) (page : Nat)
    (sh : Bool) (h : s.ctl.fresh) :
    (beginFetch s page sh).2 ∉ ((beginFetch s page sh).1).ctl.aborted := by
  obtain ⟨-, -, -, -, hctl, hid⟩ := beginFetch_proj s page sh
  obtain ⟨-, -, hid2, hab⟩ := ApiUtils.createRequestController_spec s.ctl
  rw [hid, hid2, hctl, hab]
  rcases hc : s.ctl.current with _ | c
  · exact h.2
  · intro hmem
    rcases List.mem_cons.mp hmem with heq | hmem2
    · exact h.1 (by rw [hc, heq])
    · exact h.2 hmem2

/-- **C5** (confirmed).  Every failed (non-superseded) fetch of the paginated
controller increments the per-instance retry counter; whenever the counter
has reached `maxRetries = 3`, the automatic initial-load effect is a no-op
(so the disabled state persists under the automatic path); `refetch` resets
the counter to zero before fetching, and `refetch` / `invalidateCache` each
issue exactly one request, for page 1. -/
theorem c5_retry_ceiling {T : Type} :
    (∀ (cfg : UseInfiniteApiConfig) (now : Nat) (s : InfiniteApiState T)
        (page : Nat) (sh ir : Bool) (msg : String), s.ctl.fresh →
        (fetchPage (fun _ => .error msg) cfg now s page sh ir).retryCount =
          s.retryCount + 1) ∧
    (∀ (enabled : Bool) (fetcher : Nat → Except String (PaginatedResponse T))
        (cfg : UseInfiniteApiConfig) (now : Nat) (s : InfiniteApiState T),
        maxRetries ≤ s.retryCount →
        initialLoadEffect enabled fetcher cfg now s = s) ∧
    (∀ s : InfiniteApiState T, (refetchReset s).retryCount = 0) ∧
    (∀ (fetcher : Nat → Except String (PaginatedResponse T))
        (cfg : UseInfiniteApiConfig) (now : Nat) (s : InfiniteApiState T),
        (refetch fetcher cfg now s).requestLog = s.requestLog ++ [1] ∧
        (invalidateCache fetcher cfg now s).requestLog = s.requestLog ++ [1]) := by
  have hlog : ∀ (fetcher : Nat → Except String (PaginatedResponse T))
      (cfg : UseInfiniteApiConfig) (now : Nat) (s : InfiniteApiState T)
      (page : Nat) (sh ir : Bool),
      (fetchPage fetcher cfg now s page sh ir).requestLog =
        s.requestLog ++ [page] := by
    intro fetcher cfg now s page sh ir
    unfold fetchPage
    rw [finishFetch_requestLog]
    exact (beginFetch_proj s page sh).2.2.2.1
  refine ⟨?_, ?_, fun _ => rfl, ?_⟩
  · intro cfg now s page sh ir msg hfresh
    unfold fetchPage
    rcases beginFetch_proj s page sh with ⟨hrc, -, -, -, -, -⟩
    rw [(finishFetch_error_proj cfg now (beginFetch s page sh).1
      (beginFetch s page sh).2 page sh ir msg
      (fresh_beginFetch s page sh hfresh)).1, hrc]
  · intro enabled fetcher cfg now s h
    unfold initialLoadEffect
    split_ifs <;> simp_all
  · intro fetcher cfg now s
    constructor
    · unfold refetch
      rw [hlog]
      rfl
    · unfold invalidateCache refetch
      rw [hlog]
      rfl

/-- Witness for `c5_retry_ceiling`: a concrete instance with the counter at
the ceiling. -/
theorem c5_retry_ceiling_witness :
    (fetchPage (fun _ => Except.error "boom")
        { cacheKey := "k", cacheTtl := 1000 } 0 c5State 1 true false).retryCount =
      3 + 1 ∧
    initialLoadEffect true (fun _ => Except.error "boom")
        { cacheKey := "k", cacheTtl := 1000 } 0 c5State = c5State ∧
    (refetch (fun _ => Except.error "boom")
        { cacheKey := "k", cacheTtl := 1000 } 0 c5State).requestLog =
      [] ++ [1] :=
  ⟨(c5_retry_ceiling (T := Post)).1 { cacheKey := "k", cacheTtl := 1000 } 0
      c5State 1 true false "boom" (by decide),
   (c5_retry_ceiling (T := Post)).2.1 true (fun _ => Except.error "boom")
      { cacheKey := "k", cacheTtl := 1000 } 0 c5State (by decide),
   ((c5_retry_ceiling (T := Post)).2.2.2 (fun _ => Except.error "boom")
      { cacheKey := "k", cacheTtl := 1000 } 0 c5State).1⟩

/-- **C6** (confirmed).  `refetch()`, from any state with a well-formed
controller ref, discards all pages, resets the page number to 1, sets
`hasMore`, clears the error, and issues exactly one request for page 1; on
success the state holds exactly the fresh page 1 and the cache entry for the
key is replaced by the one-page sequence `[r]`, never appended to. -/
theorem c6_refetch_replaces {T : Type} (cfg : UseInfiniteApiConfig) (now : Nat)
    (s : InfiniteApiState T) (r : PaginatedResponse T) (h : s.ctl.fresh) :
    (refetchReset s).pages = [] ∧
    (refetchReset s).currentPage = 1 ∧
    (refetchReset s).hasMore = true ∧
    (refetchReset s).error = none ∧
    (refetchReset s).retryCount = 0 ∧
    (refetch (fun _ => .ok r) cfg now s).pages = [r] ∧
    (refetch (fun _ => .ok r) cfg now s).error = none ∧
    (refetch (fun _ => .ok r) cfg now s).hasMore = r.pagination.hasMore ∧
    (refetch (fun _ => .ok r) cfg now s).currentPage = r.pagination.page ∧
    (refetch (fun _ => .ok r) cfg now s).requestLog = s.requestLog ++ [1] ∧
    (refetch (fun _ => .ok r) cfg now s).cache.memory.lookup cfg.cacheKey =
      some (UniversalCacheManager.createInfiniteEntry [r] cfg.cacheTtl now) := by
  have hfresh2 : (refetchReset s).ctl.fresh := h
  have hnm := fresh_beginFetch (refetchReset s) 1 true hfresh2
  have hproj := finishFetch_ok_proj cfg now (beginFetch (refetchReset s) 1 true).1
    (beginFetch (refetchReset s) 1 true).2 1 true true r
    (by
      rcases beginFetch_proj (refetchReset s) 1 true with ⟨-, -, -, -, hctl, hid⟩
      exact hnm)
  rcases beginFetch_proj (refetchReset s) 1 true with ⟨-, hpg, hca, hlg, -, -⟩
  refine ⟨rfl, rfl, rfl, rfl, rfl, ?_, ?_, ?_, ?_, ?_, ?_⟩
  · show (finishFetch cfg now (beginFetch (refetchReset s) 1 true).1
      (beginFetch (refetchReset s) 1 true).2 1 true true
      ((fun _ => Except.ok r) 1)).pages = [r]
    rw [hproj.1]
    simp
  · exact hproj.2.2.1
  · exact hproj.2.2.2.1
  · exact hproj.2.2.2.2.1
  · show (finishFetch cfg now (beginFetch (refetchReset s) 1 true).1
      (beginFetch (refetchReset s) 1 true).2 1 true true
      ((fun _ => Except.ok r) 1)).requestLog = s.requestLog ++ [1]
    rw [finishFetch_requestLog, hlg]
    rfl
  · show (finishFetch cfg now (beginFetch (refetchReset s) 1 true).1
      (beginFetch (refetchReset s) 1 true).2 1 true true
      ((fun _ => Except.ok r) 1)).cache.memory.lookup cfg.cacheKey =
      some (UniversalCacheManager.createInfiniteEntry [r] cfg.cacheTtl now)
    rw [hproj.2.2.2.2.2]
    simp [setCachedPages, UniversalCacheManager.set_memory,
      AList.lookup_insert_self]

/-- Witness for `c6_refetch_replaces`: refetch from the post-scenario state
`c3s3` (three accumulated pages) with a fresh page-1 result replaces
everything with that single page. -/
theorem c6_refetch_replaces_witness :
    (refetch (fun _ => .ok (c6WitnessPage)) c3Cfg 7 c3s3).pages =
      [c6WitnessPage] ∧
    (refetch (fun _ => .ok (c6WitnessPage)) c3Cfg 7 c3s3).cache.memory.lookup
        c3Cfg.cacheKey =
      some (UniversalCacheManager.createInfiniteEntry [c6WitnessPage]
        c3Cfg.cacheTtl 7) :=
  ⟨(c6_refetch_replaces c3Cfg 7 c3s3 c6WitnessPage (by decide)).2.2.2.2.2.1,
   (c6_refetch_replaces c3Cfg 7 c3s3 c6WitnessPage
      (by decide)).2.2.2.2.2.2.2.2.2.2⟩

/-! String helpers for reasoning about cache-key templates. -/

theorem stringDataInj {s t : String} (h : s.data = t.data) : s = t := by
  cases s; cases t
  exact congrArg String.mk h

theorem stringAppendCancelLeft (a b c : String) (h : a ++ b = a ++ c) :
    b = c := by
  have hd := congrArg String.data h
  simp [String.data_append] at hd
  cases b; cases c
  exact congrArg String.mk hd

theorem stringAppendAssoc (a b c : String) : (a ++ b) ++ c = a ++ (b ++ c) :=
  stringDataInj (by simp [String.data_append, List.append_assoc])

/-- The posts cache key splits as a `limit`-determined prefix followed by the
user tag. -/
theorem postsInfiniteCacheKey_eq (limit : Nat) (u : Option Nat) :
    postsInfiniteCacheKey limit u =
      ("posts_infinite_limit_" ++ toString limit ++ "_user_") ++ userTag u :=
  rfl

/-! Facts about the decimal rendering `Nat.repr` underlying `toString` on
`Nat`: every character is a digit, and the rendering is injective (it is
inverted by `listVal`). -/

theorem digitChar_isDigit {m : Nat} (h : m < 10) :
    (Nat.digitChar m).isDigit = true := by
  interval_cases m <;> decide

theorem chVal_digitChar {m : Nat} (h : m < 10) :
    chVal (Nat.digitChar m) = m := by
  interval_cases m <;> decide

theorem toDigitsCore_mem {c : Char} : ∀ (fuel n : Nat) (ds : List Char),
    c ∈ Nat.toDigitsCore 10 fuel n ds → c ∈ ds ∨ c.isDigit = true := by
  intro fuel
  induction fuel with
  | zero => intro n ds h; exact Or.inl h
  | succ fuel ih =>
    intro n ds h
    simp only [Nat.toDigitsCore] at h
    by_cases hz : n / 10 = 0
    · rw [if_pos hz] at h
      rcases List.mem_cons.mp h with rfl | h2
      · exact Or.inr (digitChar_isDigit (Nat.mod_lt n (by decide)))
      · exact Or.inl h2
    · rw [if_neg hz] at h
      rcases ih (n / 10) _ h with h2 | h2
      · rcases List.mem_cons.mp h2 with rfl | h3
        · exact Or.inr (digitChar_isDigit (Nat.mod_lt n (by decide)))
        · exact Or.inl h3
      · exact Or.inr h2

theorem toDigitsCore_append : ∀ (fuel n : Nat) (ds : List Char),
    Nat.toDigitsCore 10 fuel n ds = Nat.toDigitsCore 10 fuel n [] ++ ds := by
  intro fuel
  induction fuel with
  | zero => intro n ds; rfl
  | succ fuel ih =>
    intro n ds
    simp only [Nat.toDigitsCore]
    by_cases hz : n / 10 = 0
    · rw [if_pos hz, if_pos hz]
      rfl
    · rw [if_neg hz, if_neg hz, ih (n / 10) (Nat.digitChar (n % 10) :: ds),
        ih (n / 10) [Nat.digitChar (n % 10)]]
      simp

theorem listVal_append_digit (xs : List Char) (c : Char) :
    listVal (xs ++ [c]) = 10 * listVal xs + chVal c := by
  simp [listVal, List.foldl_append]

theorem listVal_toDigitsCore : ∀ (fuel n : Nat), n < fuel →
    listVal (Nat.toDigitsCore 10 fuel n []) = n := by
  intro fuel
  induction fuel with
  | zero => intro n h; omega
  | succ fuel ih =>
    intro n h
    simp only [Nat.toDigitsCore]
    by_cases hz : n / 10 = 0
    · rw [if_pos hz]
      have hn : n < 10 := by
        rcases Nat.lt_or_ge n 10 with h10 | h10
        · exact h10
        · exact absurd hz (by
            have : 1 ≤ n / 10 := Nat.le_div_iff_mul_le (by decide) |>.mpr
              (by omega)
            omega)
      show listVal [Nat.digitChar (n % 10)] = n
      simp [listVal, Nat.mod_eq_of_lt hn, chVal_digitChar hn]
    · rw [if_neg hz, toDigitsCore_append, listVal_append_digit]
      have hpos : 0 < n := by
        rcases Nat.eq_zero_or_pos n with rfl | hp
        · exact absurd (by decide : (0 : Nat) / 10 = 0) hz
        · exact hp
      have hlt : n / 10 < fuel :=
        Nat.lt_of_lt_of_le (Nat.div_lt_self hpos (by decide))
          (Nat.lt_succ_iff.mp h)
      rw [ih (n / 10) hlt, chVal_digitChar (Nat.mod_lt n (by decide))]
      exact Nat.div_add_mod n 10

theorem natRepr_listVal (n : Nat) : listVal (Nat.repr n).data = n :=
  listVal_toDigitsCore (n + 1) n (Nat.lt_succ_self n)

theorem natRepr_inj {m n : Nat} (h : Nat.repr m = Nat.repr n) : m = n := by
  have hm := natRepr_listVal m
  rw [h, natRepr_listVal n] at hm
  exact hm.symm

theorem natRepr_all_digits {n : Nat} {c : Char}
    (hc : c ∈ (Nat.repr n).data) : c.isDigit = true := by
  rcases toDigitsCore_mem (n + 1) n [] hc with h | h
  · cases h
  · exact h

theorem natRepr_ne_all (n : Nat) : Nat.repr n ≠ "all" := by
  intro h
  have hmem : ('a' : Char) ∈ (Nat.repr n).data := by
    rw [h]
    decide
  exact absurd (natRepr_all_digits hmem) (by decide)

theorem underscore_not_mem_natRepr (n : Nat) :
    ('_' : Char) ∉ (Nat.repr n).data := by
  intro h
  exact absurd (natRepr_all_digits h) (by decide)

/-- Splitting a char list at the first occurrence of a separator is
unambiguous. -/
theorem append_sep_inj {sep : Char} : ∀ (xs1 xs2 rest1 rest2 : List Char),
    sep ∉ xs1 → sep ∉ xs2 →
    xs1 ++ sep :: rest1 = xs2 ++ sep :: rest2 →
    xs1 = xs2 ∧ rest1 = rest2 := by
  intro xs1
  induction xs1 with
  | nil =>
    intro xs2 r1 r2 _h1 h2 h
    cases xs2 with
    | nil =>
      simp at h
      exact ⟨rfl, h⟩
    | cons y ys =>
      simp at h
      exact absurd (by rw [h.1]; exact List.mem_cons_self y ys) h2
  | cons x xs ih =>
    intro xs2 r1 r2 h1 h2 h
    cases xs2 with
    | nil =>
      simp at h
      exact absurd (by rw [← h.1]; exact List.mem_cons_self x xs) h1
    | cons y ys =>
      simp at h
      obtain ⟨hxy, hrest⟩ := h
      have h1' : sep ∉ xs := fun hm => h1 (List.mem_cons_of_mem x hm)
      have h2' : sep ∉ ys := fun hm => h2 (List.mem_cons_of_mem y hm)
      obtain ⟨he, hr⟩ := ih ys r1 r2 h1' h2' hrest
      exact ⟨by rw [hxy, he], hr⟩

/-- The user tag is injective away from the JS-falsy value `0`. -/
theorem userTag_inj {u1 u2 : Option Nat} (h1 : u1 ≠ some 0)
    (h2 : u2 ≠ some 0) (h : userTag u1 = userTag u2) : u1 = u2 := by
  match u1, u2 with
  | none, none => rfl
  | none, some v =>
    have hv : ¬v = 0 := fun e => h2 (by rw [e])
    rw [userTag, userTag, if_neg hv] at h
    exact absurd h.symm (natRepr_ne_all v)
  | some v, none =>
    have hv : ¬v = 0 := fun e => h1 (by rw [e])
    rw [userTag, userTag, if_neg hv] at h
    exact absurd h (natRepr_ne_all v)
  | some v1, some v2 =>
    have hv1 : ¬v1 = 0 := fun e => h1 (by rw [e])
    have hv2 : ¬v2 = 0 := fun e => h2 (by rw [e])
    rw [userTag, userTag, if_neg hv1, if_neg hv2] at h
    rw [natRepr_inj h]

/-- **C7** (amended).  The posts cache key is deterministic (a pure function
of `(limit, userId)`), and injective on every pair of combinations whose
`userId` is not the JS-falsy value `0`: distinct limits or distinct user
filters — including "all users" versus any nonzero user id — always produce
distinct keys.  The single exception is `userId = 0`, which the template
`${userId || 'all'}` renders as `"all"`, colliding with the unconstrained
key (see `c7_counterexample`). -/
theorem c7_cache_key_injectivity (l1 l2 : Nat) (u1 u2 : Option Nat)
    (h1 : u1 ≠ some 0) (h2 : u2 ≠ some 0)
    (heq : postsInfiniteCacheKey l1 u1 = postsInfiniteCacheKey l2 u2) :
    l1 = l2 ∧ u1 = u2 := by
  have hd := congrArg String.data heq
  simp only [postsInfiniteCacheKey, String.data_append, List.append_assoc] at hd
  replace hd := List.append_cancel_left hd
  have hsep : ∀ t : List Char,
      String.data "_user_" ++ t = '_' :: (String.data "user_" ++ t) :=
    fun t => rfl
  rw [hsep, hsep] at hd
  obtain ⟨hls, hrest⟩ := append_sep_inj _ _ _ _
    (underscore_not_mem_natRepr l1) (underscore_not_mem_natRepr l2) hd
  refine ⟨natRepr_inj (stringDataInj hls), ?_⟩
  replace hrest := List.append_cancel_left hrest
  exact userTag_inj h1 h2 (stringDataInj hrest)

/-- Witness for `c7_cache_key_injectivity` at `limit = 10` and the nonzero
user id 42. -/
theorem c7_cache_key_injectivity_witness :
    (some 42 : Option Nat) ≠ some 0 ∧ (10 : Nat) = 10 ∧
    (some 42 : Option Nat) = some 42 :=
  ⟨by decide,
   (c7_cache_key_injectivity 10 10 (some 42) (some 42) (by decide) (by decide)
      rfl).1,
   (c7_cache_key_injectivity 10 10 (some 42) (some 42) (by decide) (by decide)
      rfl).2⟩

/-- **C7** counterexample: the specific filter value `userId = 0` and the
"all users" combination (`userId` undefined) are logically different but
produce the same key, because `${userId || 'all'}` treats `0` as falsy. -/
theorem c7_counterexample :
    postsInfiniteCacheKey 10 (some 0) = postsInfiniteCacheKey 10 none ∧
    (some 0 : Option Nat) ≠ none := by
  constructor
  · decide
  · decide

/-- The "all users" key splits as the same `limit`-determined prefix as the
per-user keys, followed by the tag `"all"`. -/
theorem allUsersKey_eq (l : Nat) :
    allUsersKey l =
      ("posts_infinite_limit_" ++ toString l ++ "_user_") ++ "all" := by
  unfold allUsersKey
  rw [show ("_user_all" : String) = "_user_" ++ "all" by decide]
  exact (stringAppendAssoc _ _ _).symm

theorem userCacheKey_ne_allUsersKey (l u : Nat) (h : toString u ≠ "all") :
    userCacheKey l u ≠ allUsersKey l := by
  intro he
  apply h
  rw [allUsersKey_eq] at he
  exact stringAppendCancelLeft _ _ _ he

theorem cachePfx_append_inj (k1 k2 : String) (h : k1 ≠ k2) :
    cachePfx ++ k1 ≠ cachePfx ++ k2 :=
  fun he => h (stringAppendCancelLeft _ _ _ he)

theorem delete_memory_lookup {α : Type} (s : Store α) (k k' : String) :
    (UniversalCacheManager.delete s k).memory.lookup k' =
      if k' = k then none else s.memory.lookup k' := by
  rw [UniversalCacheManager.delete_memory]
  by_cases h : k' = k
  · rw [if_pos h, h]
    exact AList.lookup_erase_self s.memory k
  · rw [if_neg h]
    exact AList.lookup_erase_ne s.memory k k' h

theorem delete_ls_lookup {α : Type} (s : Store α) (k k' : String)
    (hls : s.lsAvailable = true) :
    (UniversalCacheManager.delete s k).ls.lookup (cachePfx ++ k') =
      if k' = k then none
      else s.ls.lookup (cachePfx ++ k') := by
  rw [UniversalCacheManager.delete_ls_of_available s k hls]
  by_cases h : k' = k
  · rw [if_pos h, h]
    exact AList.lookup_erase_self s.ls (cachePfx ++ k)
  · rw [if_neg h]
    exact AList.lookup_erase_ne s.ls (cachePfx ++ k) (cachePfx ++ k')
      (cachePfx_append_inj k' k h)

theorem foldl_delete_memory_lookup {α : Type} (l : Nat) (us : List Nat)
    (s : Store α) (k : String) :
    ((us.foldl
        (fun st u => UniversalCacheManager.delete st (userCacheKey l u))
        s).memory.lookup k) =
      if ∃ u ∈ us, userCacheKey l u = k then none else s.memory.lookup k := by
  induction us generalizing s with
  | nil => simp
  | cons u rest ih =>
    simp only [List.foldl_cons]
    rw [ih]
    by_cases hrest : ∃ v ∈ rest, userCacheKey l v = k
    · have hcons : ∃ v ∈ u :: rest, userCacheKey l v = k := by
        obtain ⟨w, hw, hwk⟩ := hrest
        exact ⟨w, List.mem_cons_of_mem u hw, hwk⟩
      rw [if_pos hrest, if_pos hcons]
    · by_cases hk : userCacheKey l u = k
      · have hcons : ∃ v ∈ u :: rest, userCacheKey l v = k :=
          ⟨u, List.mem_cons_self u rest, hk⟩
        rw [if_neg hrest, if_pos hcons, delete_memory_lookup, if_pos hk.symm]
      · have hcons : ¬∃ v ∈ u :: rest, userCacheKey l v = k := by
          rintro ⟨w, hw, hwk⟩
          rcases List.mem_cons.mp hw with rfl | hw2
          · exact hk hwk
          · exact hrest ⟨w, hw2, hwk⟩
        rw [if_neg hrest, if_neg hcons, delete_memory_lookup,
          if_neg (fun e : k = userCacheKey l u => hk e.symm)]

theorem foldl_delete_lsAvailable {α : Type} (l : Nat) (us : List Nat)
    (s : Store α) :
    ((us.foldl
        (fun st u => UniversalCacheManager.delete st (userCacheKey l u))
        s).lsAvailable) = s.lsAvailable := by
  induction us generalizing s with
  | nil => rfl
  | cons u rest ih =>
    simp only [List.foldl_cons]
    rw [ih, UniversalCacheManager.delete_lsAvailable]

theorem foldl_delete_ls_lookup {α : Type} (l : Nat) (us : List Nat)
    (s : Store α) (k : String) (hls : s.lsAvailable = true) :
    ((us.foldl
        (fun st u => UniversalCacheManager.delete st (userCacheKey l u))
        s).ls.lookup (cachePfx ++ k)) =
      if ∃ u ∈ us, userCacheKey l u = k then none
      else s.ls.lookup (cachePfx ++ k) := by
  induction us generalizing s with
  | nil => simp
  | cons u rest ih =>
    simp only [List.foldl_cons]
    have hls2 : (UniversalCacheManager.delete s (userCacheKey l u)).lsAvailable =
        true := by
      rw [UniversalCacheManager.delete_lsAvailable]; exact hls
    rw [ih _ hls2]
    by_cases hrest : ∃ v ∈ rest, userCacheKey l v = k
    · have hcons : ∃ v ∈ u :: rest, userCacheKey l v = k := by
        obtain ⟨w, hw, hwk⟩ := hrest
        exact ⟨w, List.mem_cons_of_mem u hw, hwk⟩
      rw [if_pos hrest, if_pos hcons]
    · by_cases hk : userCacheKey l u = k
      · have hcons : ∃ v ∈ u :: rest, userCacheKey l v = k :=
          ⟨u, List.mem_cons_self u rest, hk⟩
        rw [if_neg hrest, if_pos hcons, delete_ls_lookup _ _ _ hls,
          if_pos hk.symm]
      · have hcons : ¬∃ v ∈ u :: rest, userCacheKey l v = k := by
          rintro ⟨w, hw, hwk⟩
          rcases List.mem_cons.mp hw with rfl | hw2
          · exact hk hwk
          · exact hrest ⟨w, hw2, hwk⟩
        rw [if_neg hrest, if_neg hcons, delete_ls_lookup _ _ _ hls,
          if_neg (fun e : k = userCacheKey l u => hk e.symm)]

/-- **C8** (amended).  The filters cache manager acts on the *new* value of
the user-filter dimension: switching to a specific user `v` deletes exactly
the unconstrained ("all users") entry from both tiers and leaves every
user-specific entry untouched; switching to unconstrained deletes the entry
of every known discrete user id 1..10 from both tiers and leaves the
unconstrained entry untouched.  Switching between two specific user values
therefore does not delete the other users' entries (see
`c8_counterexample`). -/
theorem c8_cross_filter_invalidation {α : Type} (s : Store α) (l v u : Nat)
    (hu : u ∈ List.range' 1 10) (hls : s.lsAvailable = true) :
    (useFiltersCacheManagerEffect s (some v) l).memory.lookup (allUsersKey l) =
      none ∧
    (useFiltersCacheManagerEffect s (some v) l).ls.lookup
        (cachePfx ++ allUsersKey l) = none ∧
    (useFiltersCacheManagerEffect s (some v) l).memory.lookup
        (userCacheKey l u) = s.memory.lookup (userCacheKey l u) ∧
    (useFiltersCacheManagerEffect s none l).memory.lookup (userCacheKey l u) =
      none ∧
    (useFiltersCacheManagerEffect s none l).ls.lookup
        (cachePfx ++ userCacheKey l u) = none ∧
    (useFiltersCacheManagerEffect s none l).memory.lookup (allUsersKey l) =
      s.memory.lookup (allUsersKey l) := by
  have htag : ∀ w ∈ List.range' 1 10, toString w ≠ "all" := by decide
  have hne : userCacheKey l u ≠ allUsersKey l :=
    userCacheKey_ne_allUsersKey l u (htag u hu)
  refine ⟨?_, ?_, ?_, ?_, ?_, ?_⟩
  · show (UniversalCacheManager.delete s (allUsersKey l)).memory.lookup
        (allUsersKey l) = none
    rw [delete_memory_lookup]
    simp
  · show (UniversalCacheManager.delete s (allUsersKey l)).ls.lookup
        (cachePfx ++ allUsersKey l) = none
    rw [delete_ls_lookup _ _ _ hls]
    simp
  · show (UniversalCacheManager.delete s (allUsersKey l)).memory.lookup
        (userCacheKey l u) = s.memory.lookup (userCacheKey l u)
    rw [delete_memory_lookup]
    exact if_neg hne
  · show ((List.range' 1 10).foldl
        (fun st w => UniversalCacheManager.delete st (userCacheKey l w))
        s).memory.lookup (userCacheKey l u) = none
    rw [foldl_delete_memory_lookup]
    exact if_pos ⟨u, hu, rfl⟩
  · show ((List.range' 1 10).foldl
        (fun st w => UniversalCacheManager.delete st (userCacheKey l w))
        s).ls.lookup (cachePfx ++ userCacheKey l u) = none
    rw [foldl_delete_ls_lookup _ _ _ _ hls]
    exact if_pos ⟨u, hu, rfl⟩
  · show ((List.range' 1 10).foldl
        (fun st w => UniversalCacheManager.delete st (userCacheKey l w))
        s).memory.lookup (allUsersKey l) = s.memory.lookup (allUsersKey l)
    rw [foldl_delete_memory_lookup]
    refine if_neg ?_
    rintro ⟨w, hw, hwk⟩
    exact userCacheKey_ne_allUsersKey l w (htag w hw) hwk

/-- Witness for `c8_cross_filter_invalidation` on a concrete store at
`limit = 10`, new value `5`, other user `3`. -/
theorem c8_cross_filter_invalidation_witness :
    (useFiltersCacheManagerEffect (emptyStore Nat) (some 5) 10).memory.lookup
        (allUsersKey 10) = none ∧
    (useFiltersCacheManagerEffect (emptyStore Nat) none 10).memory.lookup
        (userCacheKey 10 3) = none :=
  ⟨(c8_cross_filter_invalidation (emptyStore Nat) 10 5 3 (by decide) rfl).1,
   (c8_cross_filter_invalidation (emptyStore Nat) 10 5 3
      (by decide) rfl).2.2.2.1⟩

/-- **C8** counterexample: with a cached page sequence for user 3 present,
switching the filter to the different specific user 5 does not delete user
3's entry (a known discrete user id other than the new value), contradicting
the claim that switching away from a specific value invalidates every other
known value's entry. -/
theorem c8_counterexample :
    (useFiltersCacheManagerEffect c8CounterStore (some 5) 10).memory.lookup
        (userCacheKey 10 3) =
      some { data := 3, timestamp := 0, expiresAt := 1000 } := by decide

theorem fetchData_error_proj {T : Type} (cfg : UseApiConfig) (now : Nat)
    (s : ApiState T) (msg : String) (h : s.ctl.fresh) :
    (fetchData (.error msg) cfg now s false).data = s.data ∧
    (fetchData (.error msg) cfg now s false).loading = s.loading ∧
    (fetchData (.error msg) cfg now s false).requestCount =
      s.requestCount + 1 ∧
    (fetchData (.error msg) cfg now s false).error = some msg := by
  have hnm : (ApiUtils.createRequestController s.ctl).2 ∉
      (ApiUtils.createRequestController s.ctl).1.aborted := by
    obtain ⟨-, -, hid, hab⟩ := ApiUtils.createRequestController_spec s.ctl
    rw [hid, hab]
    rcases hc : s.ctl.current with _ | c
    · exact h.2
    · intro hmem
      rcases List.mem_cons.mp hmem with heq | hmem2
      · exact h.1 (by rw [hc, heq])
      · exact h.2 hmem2
  simp only [fetchData, beginFetchData, finishFetchData]
  refine ⟨?_, ?_, ?_, ?_⟩ <;> simp [hnm]

/-- **C9** (amended).  In the single-resource controller, with an unexpired
but stale cached payload already exposed to the caller, the initial-load
effect issues a background revalidation without touching the loading flag;
when that background fetch fails, the existing payload is retained unchanged —
but the failure *is* surfaced to the caller: the hook's `error` state is set
to the failure message (see `c9_counterexample`). -/
theorem c9_background_refresh {T : Type} (cfg : UseApiConfig) (now : Nat)
    (s : ApiState T) (v : T) (msg : String) (hfresh : s.ctl.fresh)
    (hdata : s.data = some v)
    (hstale : (ApiUtils.isCacheStale now s.cache cfg.cacheKey
      defaultStaleThreshold).2 = true) :
    (useApiInitialEffect true (Except.error msg) cfg now s).data = some v ∧
    (useApiInitialEffect true (Except.error msg) cfg now s).loading =
      s.loading ∧
    (useApiInitialEffect true (Except.error msg) cfg now s).requestCount =
      s.requestCount + 1 ∧
    (useApiInitialEffect true (Except.error msg) cfg now s).error =
      some msg := by
  have heff : useApiInitialEffect true (Except.error msg) cfg now s =
      fetchData (Except.error msg) cfg now
        { s with cache := (ApiUtils.isCacheStale now s.cache cfg.cacheKey
            defaultStaleThreshold).1 } false := by
    simp only [useApiInitialEffect, hdata, Bool.not_true]
    rw [if_neg (by simp), if_pos hstale]
  rw [heff]
  have hproj := fetchData_error_proj cfg now
    { s with cache := (ApiUtils.isCacheStale now s.cache cfg.cacheKey
        defaultStaleThreshold).1 } msg hfresh
  exact ⟨hproj.1.trans hdata, hproj.2.1, hproj.2.2.1, hproj.2.2.2⟩

/-- Witness for `c9_background_refresh` on the concrete scenario state
(payload 7 cached at time 0, read at time 40000). -/
theorem c9_background_refresh_witness :
    (useApiInitialEffect true (Except.error "Network error") c9Cfg 40000
        c9State).data = some 7 ∧
    (useApiInitialEffect true (Except.error "Network error") c9Cfg 40000
        c9State).loading = false ∧
    (useApiInitialEffect true (Except.error "Network error") c9Cfg 40000
        c9State).error = some "Network error" :=
  ⟨(c9_background_refresh c9Cfg 40000 c9State 7 "Network error" (by decide)
      rfl (by decide)).1,
   (c9_background_refresh c9Cfg 40000 c9State 7 "Network error" (by decide)
      rfl (by decide)).2.1,
   (c9_background_refresh c9Cfg 40000 c9State 7 "Network error" (by decide)
      rfl (by decide)).2.2.2⟩

/-- **C9** counterexample: in the stale-payload scenario, a failing background
revalidation leaves the caller-visible `error` state set (to the failure
message) rather than unset — `setError` runs in the catch branch regardless of
`showLoading`. -/
theorem c9_counterexample :
    (useApiInitialEffect true (Except.error "Network error") c9Cfg 40000
        c9State).error ≠ none := by decide

theorem firstInvalidIndexAux_none {ps : List Post} {i : Nat}
    (h : firstInvalidIndexAux ps i = none) :
    ∀ p ∈ ps, postInvalid p = false := by
  induction ps generalizing i with
  | nil => intro p hp; cases hp
  | cons q rest ih =>
    intro p hp
    unfold firstInvalidIndexAux at h
    by_cases hq : postInvalid q
    · rw [if_pos hq] at h
      cases h
    · rw [if_neg hq] at h
      rcases List.mem_cons.mp hp with rfl | hp2
      · exact Bool.not_eq_true _ ▸ (by simpa using hq)
      · exact ih h p hp2

theorem firstInvalidIndexAux_isSome {ps : List Post} {p : Post} {i : Nat}
    (hp : p ∈ ps) (hbad : postInvalid p = true) :
    ∃ j, firstInvalidIndexAux ps i = some j := by
  induction ps generalizing i with
  | nil => cases hp
  | cons q rest ih =>
    unfold firstInvalidIndexAux
    by_cases hq : postInvalid q
    · exact ⟨i, by rw [if_pos hq]⟩
    · rcases List.mem_cons.mp hp with rfl | hp2
      · exact absurd hbad (by simpa using hq)
      · obtain ⟨j, hj⟩ := ih hp2 (i := i + 1)
        exact ⟨j, by rw [if_neg hq]; exact hj⟩

/-- **C10** (confirmed).  The fetch boundary rejects JS-falsy required fields:
a post is invalid exactly when `id = 0`, `userId = 0`, or an empty `title` or
`body`; whenever the parsed body contains such a post, both
`fetchPaginatedPosts` and `fetchPosts` throw an "Invalid post structure"
error; and every post array they successfully return contains only posts with
nonzero `id` and `userId` and non-empty `title` and `body`. -/
theorem c10_strict_falsy_validation (params : PaginationWithFiltersParams)
    (resp : HttpResponse) :
    (∀ p : Post, postInvalid p = false ↔
      (p.id ≠ 0 ∧ p.userId ≠ 0 ∧ p.title ≠ "" ∧ p.body ≠ "")) ∧
    (resp.ok = true → (∃ p ∈ resp.body, postInvalid p = true) →
      (∃ i : Nat, fetchPaginatedPosts params resp =
        .error ("Failed to fetch paginated posts: Invalid post structure at index "
          ++ toString i)) ∧
      (∃ i : Nat, fetchPosts resp =
        .error ("Failed to fetch posts: Invalid post structure at index "
          ++ toString i))) ∧
    (∀ r, fetchPaginatedPosts params resp = .ok r →
      ∀ p ∈ r.data, postInvalid p = false) ∧
    (∀ ps, fetchPosts resp = .ok ps →
      ∀ p ∈ ps, postInvalid p = false) := by
  refine ⟨?_, ?_, ?_, ?_⟩
  · intro p
    simp [postInvalid, not_or]
    tauto
  · intro hok ⟨p, hp, hbad⟩
    obtain ⟨j, hj⟩ := firstInvalidIndexAux_isSome hp hbad (i := 0)
    have hidx : firstInvalidIndex resp.body = some j := hj
    constructor
    · exact ⟨j, by simp [fetchPaginatedPosts, hok, hidx]⟩
    · exact ⟨j, by simp [fetchPosts, hok, hidx]⟩
  · intro r hr p hp
    rcases hok : resp.ok with _ | _
    · simp [fetchPaginatedPosts, hok] at hr
    · rcases hidx : firstInvalidIndex resp.body with _ | j
      · have hbody : r.data = resp.body := by
          simp [fetchPaginatedPosts, hok, hidx] at hr
          rw [← hr]
        exact firstInvalidIndexAux_none hidx p (hbody ▸ hp)
      · simp [fetchPaginatedPosts, hok, hidx] at hr
  · intro ps hps p hp
    rcases hok : resp.ok with _ | _
    · simp [fetchPosts, hok] at hps
    · rcases hidx : firstInvalidIndex resp.body with _ | j
      · have hbody : ps = resp.body := by
          simp [fetchPosts, hok, hidx] at hps
          exact hps.symm
        exact firstInvalidIndexAux_none hidx p (hbody ▸ hp)
      · simp [fetchPosts, hok, hidx] at hps

/-- Witness for `c10_strict_falsy_validation`: a response containing a post
with `id = 0` (present but falsy) is rejected by both fetchers, and a valid
response round-trips. -/
theorem c10_strict_falsy_validation_witness :
    (∃ i : Nat, fetchPaginatedPosts
        { page := none, limit := none, start := none, userId := none }
        c10BadResp =
      .error ("Failed to fetch paginated posts: Invalid post structure at index "
        ++ toString i)) ∧
    (∃ i : Nat, fetchPosts c10BadResp =
      .error ("Failed to fetch posts: Invalid post structure at index "
        ++ toString i)) :=
  (c10_strict_falsy_validation
    { page := none, limit := none, start := none, userId := none }
    c10BadResp).2.1 rfl
    ⟨{ id := 0, userId := 1, title := "t", body := "b" }, by decide, by decide⟩

end ReactPosts
